import Mathlib

/-!
Verification development for the freesasa core (SASA computation engines,
subarea aggregation and RSA normalization).  The repository exposes only the
interface header `src/freesasa_internal.h`; the function bodies are absent, so
every definition below is modelled from the specification and from the doc
comments of the header, as indicated in each doc string.
-/

open MeasureTheory Real Set

/-- Modelled from the spec: the three-valued return sentinel
FREESASA_SUCCESS / FREESASA_WARN / FREESASA_FAIL (spec section 7, error
taxonomy Success / Warning / Failure). -/
inductive RetCode
  | success
  | warn
  | fail
deriving DecidableEq

/-- Modelled from the spec: a `freesasa_subarea` record, five floating fields
plus an optional name (spec section 3 "Subarea"; header line 14 documents
`freesasa_subarea_null` as having `name == NULL` and all values 0). -/
@[ext]
structure freesasa_subarea where
  name : Option String
  total : ℝ
  main_chain : ℝ
  side_chain : ℝ
  polar : ℝ
  apolar : ℝ

/-- Modelled from the spec: the distinguished null subarea, all fields zero and
name unset (header line 14-15). -/
def freesasa_subarea_null : freesasa_subarea :=
  { name := none, total := 0, main_chain := 0, side_chain := 0, polar := 0, apolar := 0 }

/-- Modelled from the spec: `freesasa_add_subarea` adds all members of `term`
to the corresponding members of `sum` (header lines 151-159); per spec 4.4 the
`name` is left unchanged on the accumulator. -/
def freesasa_add_subarea (s term : freesasa_subarea) : freesasa_subarea :=
  { name := s.name,
    total := s.total + term.total,
    main_chain := s.main_chain + term.main_chain,
    side_chain := s.side_chain + term.side_chain,
    polar := s.polar + term.polar,
    apolar := s.apolar + term.apolar }

/-- Modelled from the spec: the polarity verdict of the classifier capability,
`classify(atom_name) -> polar | apolar | unknown` (spec 4.3). -/
inductive AtomClass
  | polar
  | apolar
  | unknown
deriving DecidableEq

/-- Modelled from the spec: the data about one atom that the subarea
aggregator consumes - its SASA value from the result array, the polarity
verdict of the polar classifier, and the backbone verdict (spec 4.4). -/
structure AtomData where
  area : ℝ
  cls : AtomClass
  backbone : Bool

/-- Modelled from the spec: `freesasa_atom_subarea` builds a Subarea for a
single atom, assigning the full SASA value to `total`, to `polar` or `apolar`
per the classifier verdict (an `unknown` verdict contributes to neither), and
to `main_chain` or `side_chain` per the backbone verdict (header lines
131-149, spec 4.4). -/
def freesasa_atom_subarea (d : AtomData) : freesasa_subarea :=
  { name := none,
    total := d.area,
    main_chain := if d.backbone then d.area else 0,
    side_chain := if d.backbone then 0 else d.area,
    polar := if d.cls = AtomClass.polar then d.area else 0,
    apolar := if d.cls = AtomClass.apolar then d.area else 0 }

/-- Modelled from the spec: residue-level totals are produced by folding
`add_subarea` over the atoms of the residue, starting from the null subarea
(spec 4.4, last paragraph); the resulting record carries the residue name. -/
def residue_subarea (nm : Option String) (atoms : List AtomData) : freesasa_subarea :=
  { atoms.foldl (fun s d => freesasa_add_subarea s (freesasa_atom_subarea d))
      freesasa_subarea_null with
    name := nm }

/-- Modelled from the spec: trimming of surrounding whitespace from an atom
name, as the backbone check requires (header line 205 "after whitespace is
trimmed"). -/
def trimName (s : String) : String :=
  String.mk (((s.data.dropWhile Char.isWhitespace).reverse.dropWhile
    Char.isWhitespace).reverse)

/-- Modelled from the spec: `freesasa_atom_is_backbone` - an atom name, after
trimming surrounding whitespace, is backbone iff it exactly equals one of
"CA", "N", "O", "C"; case-sensitive, independent of residue type (header
lines 201-209, spec 4.3). -/
def freesasa_atom_is_backbone (atom_name : String) : Bool :=
  let t := trimName atom_name
  t == "CA" || t == "N" || t == "O" || t == "C"

/-- Modelled from the spec: `freesasa_residue_rel_subarea` computes relative
SASA values for a residue from its absolute subarea `a` and the reference
table of maximum subareas (header lines 160-176, spec 4.5).  If no reference
entry has the same name, the relative subarea is the null subarea and the
call returns Warning; otherwise each relative field is the absolute field
divided by the reference field (a zero reference field produces zero, the
convention spec 4.5 allows) and the call returns Success. -/
noncomputable def freesasa_residue_rel_subarea (a : freesasa_subarea)
    (ref_values : List freesasa_subarea) : RetCode × freesasa_subarea :=
  match ref_values.find? (fun r => r.name == a.name) with
  | none => (RetCode.warn, freesasa_subarea_null)
  | some ref =>
      (RetCode.success,
        { name := a.name,
          total := a.total / ref.total,
          main_chain := a.main_chain / ref.main_chain,
          side_chain := a.side_chain / ref.side_chain,
          polar := a.polar / ref.polar,
          apolar := a.apolar / ref.apolar })

/-- Modelled from the spec: `freesasa_rsa_val` computes the absolute and
relative SASA of one residue (header lines 177-199).  The residue's atoms are
obtained from the structure; an inconsistent structure (the accessor cannot
deliver the residue's atoms) yields Failure.  If the classifier has no
reference data at all (`reference->max == NULL`), the relative subarea is the
null subarea and the call is a Success; otherwise the relative subarea and
return code come from `freesasa_residue_rel_subarea`. -/
noncomputable def freesasa_rsa_val (residue_atoms : Option (List AtomData)) (res_name : Option String)
    (reference_max : Option (List freesasa_subarea)) :
    RetCode × Option (freesasa_subarea × freesasa_subarea) :=
  match residue_atoms with
  | none => (RetCode.fail, none)
  | some atoms =>
      let a := residue_subarea res_name atoms
      match reference_max with
      | none => (RetCode.success, some (a, freesasa_subarea_null))
      | some table =>
          let r := freesasa_residue_rel_subarea a table
          (r.1, some (a, r.2))

/-- A subarea is balanced when its total splits both into polar + apolar and
into main-chain + side-chain (the invariant of spec section 3, "Subarea"). -/
def subarea_balanced (s : freesasa_subarea) : Prop :=
  s.total = s.polar + s.apolar ∧ s.total = s.main_chain + s.side_chain

lemma subarea_balanced_null : subarea_balanced freesasa_subarea_null := by
  constructor <;> simp [freesasa_subarea_null]

lemma subarea_balanced_add {s t : freesasa_subarea} (hs : subarea_balanced s)
    (ht : subarea_balanced t) : subarea_balanced (freesasa_add_subarea s t) := by
  obtain ⟨hs1, hs2⟩ := hs
  obtain ⟨ht1, ht2⟩ := ht
  constructor <;> simp only [freesasa_add_subarea] <;> linarith

lemma subarea_balanced_atom {d : AtomData} (hd : d.cls ≠ AtomClass.unknown) :
    subarea_balanced (freesasa_atom_subarea d) := by
  constructor
  · cases h : d.cls <;> simp [freesasa_atom_subarea, h] <;> simp [h] at hd
  · by_cases h : d.backbone <;> simp [freesasa_atom_subarea, h]

lemma subarea_balanced_foldl {l : List AtomData}
    (hl : ∀ x ∈ l, x.cls ≠ AtomClass.unknown) {s : freesasa_subarea}
    (hs : subarea_balanced s) :
    subarea_balanced
      (l.foldl (fun s d => freesasa_add_subarea s (freesasa_atom_subarea d)) s) := by
  induction l generalizing s with
  | nil => exact hs
  | cons d l ih =>
      refine ih (fun x hx => hl x (List.mem_cons_of_mem d hx)) ?_
      exact subarea_balanced_add hs (subarea_balanced_atom (hl d (List.mem_cons_self d l)))

/-- C2: for all Subarea values `a` and `b`, `freesasa_add_subarea` is
commutative on the five numeric fields, and adding the null Subarea
`freesasa_subarea_null` is an identity. -/
theorem add_subarea_comm_and_identity (a b : freesasa_subarea) :
    ((freesasa_add_subarea a b).total = (freesasa_add_subarea b a).total
      ∧ (freesasa_add_subarea a b).main_chain = (freesasa_add_subarea b a).main_chain
      ∧ (freesasa_add_subarea a b).side_chain = (freesasa_add_subarea b a).side_chain
      ∧ (freesasa_add_subarea a b).polar = (freesasa_add_subarea b a).polar
      ∧ (freesasa_add_subarea a b).apolar = (freesasa_add_subarea b a).apolar)
    ∧ freesasa_add_subarea a freesasa_subarea_null = a := by
  constructor
  · refine ⟨?_, ?_, ?_, ?_, ?_⟩ <;> simp [freesasa_add_subarea, add_comm]
  · ext <;> simp [freesasa_add_subarea, freesasa_subarea_null]

/-- C3: `freesasa_atom_is_backbone` returns true iff the atom name, after
trimming surrounding whitespace, exactly equals one of "CA", "N", "O", "C";
the comparison is case-sensitive, so "CB", "ca" and the empty string give
false. -/
theorem atom_is_backbone_iff (s : String) :
    (freesasa_atom_is_backbone s = true
      ↔ (trimName s = "CA" ∨ trimName s = "N" ∨ trimName s = "O" ∨ trimName s = "C"))
    ∧ freesasa_atom_is_backbone "CB" = false
    ∧ freesasa_atom_is_backbone "ca" = false
    ∧ freesasa_atom_is_backbone "" = false := by
  refine ⟨?_, by decide, by decide, by decide⟩
  simp [freesasa_atom_is_backbone, or_assoc]

/-- C4: for every residue whose name is absent from a non-empty reference
table, `freesasa_residue_rel_subarea` returns Warning - not Failure - and the
relative subarea is the all-zero, name-unset null subarea (the absolute
subarea is an input and is untouched). -/
theorem residue_rel_subarea_missing_warn (a : freesasa_subarea)
    (table : List freesasa_subarea) (hne : table ≠ [])
    (habsent : ∀ r ∈ table, r.name ≠ a.name) :
    freesasa_residue_rel_subarea a table = (RetCode.warn, freesasa_subarea_null)
      ∧ RetCode.warn ≠ RetCode.fail := by
  refine ⟨?_, by decide⟩
  have hfind : table.find? (fun r => r.name == a.name) = none := by
    rw [List.find?_eq_none]
    intro r hr
    simpa using habsent r hr
  simp [freesasa_residue_rel_subarea, hfind]

/-- C4 witness: at the concrete absolute subarea named "XYZ" and the
single-entry reference table for "ALA", the call returns Warning and the null
relative subarea. -/
theorem residue_rel_subarea_missing_warn_witness :
    freesasa_residue_rel_subarea
        { name := some "XYZ", total := 1, main_chain := 2, side_chain := 3,
          polar := 4, apolar := 5 }
        [{ name := some "ALA", total := 100, main_chain := 40, side_chain := 60,
           polar := 30, apolar := 70 }]
      = (RetCode.warn, freesasa_subarea_null)
      ∧ RetCode.warn ≠ RetCode.fail :=
  residue_rel_subarea_missing_warn _ _ (by simp)
    (by intro r hr; simp at hr; subst hr; simp)

/-- C5: when the classifier has no reference data at all
(`reference->max == NULL`), `freesasa_rsa_val` returns Success - not Warning
or Failure - with the all-zero, name-unset null relative subarea, while the
absolute subarea is still computed from the residue's atoms. -/
theorem rsa_val_no_reference_success (atoms : List AtomData) (nm : Option String) :
    freesasa_rsa_val (some atoms) nm none
      = (RetCode.success, some (residue_subarea nm atoms, freesasa_subarea_null)) := rfl

/-- C10: `freesasa_rsa_val` returns Failure when the structure passed to it
is internally inconsistent (the residue's atoms cannot be obtained), an
outcome the header documents (line 191) but the spec's RSA section omits. -/
theorem rsa_val_inconsistent_structure_fail (nm : Option String)
    (ref : Option (List freesasa_subarea)) :
    freesasa_rsa_val none nm ref = (RetCode.fail, none) := rfl

/-- C9: a Subarea produced by `freesasa_atom_subarea` for an atom the
classifier decides (not `unknown`) is balanced (total = polar + apolar and
total = main-chain + side-chain, exactly, hence within floating tolerance);
folding `freesasa_add_subarea` over any list of decided atoms preserves the
invariant; and an `unknown` atom counts toward total but toward neither polar
nor apolar. -/
theorem atom_subarea_invariant (d : AtomData) (l : List AtomData) (nm : Option String)
    (hd : d.cls ≠ AtomClass.unknown) (hl : ∀ x ∈ l, x.cls ≠ AtomClass.unknown) :
    subarea_balanced (freesasa_atom_subarea d)
    ∧ subarea_balanced (residue_subarea nm l)
    ∧ (∀ e : AtomData, e.cls = AtomClass.unknown →
        (freesasa_atom_subarea e).total = e.area
        ∧ (freesasa_atom_subarea e).polar = 0
        ∧ (freesasa_atom_subarea e).apolar = 0) := by
  refine ⟨subarea_balanced_atom hd, ?_, ?_⟩
  · have h := subarea_balanced_foldl hl subarea_balanced_null
    exact ⟨h.1, h.2⟩
  · intro e he
    refine ⟨rfl, ?_, ?_⟩ <;> simp [freesasa_atom_subarea, he]

/-- C9 witness: the invariant at a concrete polar backbone atom of area 1.5
and the one-element atom list of an apolar side-chain atom of area 2. -/
theorem atom_subarea_invariant_witness :
    subarea_balanced (freesasa_atom_subarea ⟨1.5, AtomClass.polar, true⟩)
    ∧ subarea_balanced (residue_subarea (some "GLY") [⟨2, AtomClass.apolar, false⟩])
    ∧ (∀ e : AtomData, e.cls = AtomClass.unknown →
        (freesasa_atom_subarea e).total = e.area
        ∧ (freesasa_atom_subarea e).polar = 0
        ∧ (freesasa_atom_subarea e).apolar = 0) :=
  atom_subarea_invariant ⟨1.5, AtomClass.polar, true⟩ [⟨2, AtomClass.apolar, false⟩]
    (some "GLY") (by simp)
    (by intro x hx; simp at hx; subst hx; simp)

/-- Modelled from the spec: a point of 3-space, one per atom (spec section 3,
Coordinate Set). -/
abbrev Coord3 := EuclideanSpace ℝ (Fin 3)

/-- Build a point of 3-space from its three components. -/
def mkCoord (x y z : ℝ) : Coord3 :=
  fun m => if m.val = 0 then x else if m.val = 1 then y else z

/-- Modelled from the spec: the geometry model an engine call consumes - the
atom count, the coordinate set and the index-aligned radius array (spec
section 3; header parameters `c` and `radii`). -/
structure SasaInput where
  n : ℕ
  coord : ℕ → Coord3
  radii : ℕ → ℝ

/-- Modelled from the spec: the recognized configuration options - probe
radius, the algorithm-specific resolutions (test-point count for
Shrake-Rupley, slice spacing for Lee-Richards) and the thread count (spec
section 3, Parameters). -/
structure freesasa_parameters where
  probe_radius : ℝ
  shrake_rupley_n_points : ℕ
  lee_richards_delta : ℝ
  n_threads : ℕ

/-- Modelled from the spec: the capabilities of the execution environment an
engine call runs in - whether multi-threading is supported (header lines
33-35, "compiled in single-threaded mode") and whether the allocation of the
internal scratch buffers succeeds (header line 35). -/
structure ExecEnv where
  threads_supported : Bool
  alloc_ok : Bool

/-- Modelled from the spec: the inflated radius `radius[i] + probe_radius` of
an atom (spec 4.1). -/
def inflatedRadius (inp : SasaInput) (probe : ℝ) (i : ℕ) : ℝ :=
  inp.radii i + probe

/-- Modelled from the spec: the m-th Shrake-Rupley test point of atom `i`, on
the sphere of radius `radius[i] + probe_radius` around the atom's coordinate;
the deterministic unit-sphere point scheme `u` is left abstract (spec 4.1 and
the open question of spec section 9). -/
noncomputable def sr_test_point (inp : SasaInput) (probe : ℝ) (u : ℕ → Coord3)
    (i m : ℕ) : Coord3 :=
  inp.coord i + inflatedRadius inp probe i • u m

/-- Modelled from the spec: a test point is buried when it lies within the
inflated sphere of some other atom (spec 4.1). -/
def sr_point_buried (inp : SasaInput) (probe : ℝ) (u : ℕ → Coord3) (i m : ℕ) : Prop :=
  ∃ j, j < inp.n ∧ j ≠ i ∧
    dist (sr_test_point inp probe u i m) (inp.coord j) < inflatedRadius inp probe j

open Classical in
/-- Modelled from the spec: the number of the `k` test points of atom `i`
that are exposed (spec 4.1). -/
noncomputable def sr_exposed_count (inp : SasaInput) (probe : ℝ) (u : ℕ → Coord3)
    (k i : ℕ) : ℕ :=
  ((Finset.range k).filter fun m => ¬ sr_point_buried inp probe u i m).card

/-- Modelled from the spec: atom `i`'s Shrake-Rupley SASA, the exposed point
fraction times the full inflated-sphere area `4 pi (radius[i]+probe)^2`
(spec 4.1). -/
noncomputable def sr_atom_sasa (inp : SasaInput) (probe : ℝ) (u : ℕ → Coord3)
    (k i : ℕ) : ℝ :=
  ((sr_exposed_count inp probe u k i : ℝ) / (k : ℝ))
    * (4 * π * (inflatedRadius inp probe i) ^ 2)

/-- Modelled from the spec: the lower bound of the contiguous atom-index
range assigned to worker `t` out of `nt` (spec section 5, "contiguous
partition by atom index"). -/
def chunkLo (n nt t : ℕ) : ℕ := t * (n / nt)

/-- Modelled from the spec: the upper bound of worker `t`'s atom-index range;
the last worker takes the remainder up to `n`. -/
def chunkHi (n nt t : ℕ) : ℕ := if t + 1 = nt then n else (t + 1) * (n / nt)

/-- Modelled from the spec: the output buffer after the first `t` of the `nt`
Shrake-Rupley workers have written their disjoint atom ranges; slots not yet
written hold the initial zero (spec section 5, sharing discipline). -/
noncomputable def sr_buffer (inp : SasaInput) (probe : ℝ) (u : ℕ → Coord3)
    (k nt : ℕ) : ℕ → ℕ → ℝ
  | 0 => fun _ => 0
  | t + 1 => fun i =>
      if chunkLo inp.n nt t ≤ i ∧ i < chunkHi inp.n nt t then
        sr_atom_sasa inp probe u k i
      else sr_buffer inp probe u k nt t i

/-- Modelled from the spec: the Shrake-Rupley result after all `nt` workers
have completed (spec section 5). -/
noncomputable def sr_parallel (inp : SasaInput) (probe : ℝ) (u : ℕ → Coord3)
    (k nt : ℕ) : ℕ → ℝ :=
  sr_buffer inp probe u k nt nt

/-- Modelled from the spec: the `freesasa_shrake_rupley` entry point (header
lines 24-41).  Zero test points is an invalid configuration and fails (spec
4.1, edge cases); allocation failure of the scratch buffers fails (header
line 35); more than one requested thread without threading support completes
sequentially with a Warning (header lines 33-35); otherwise Success with the
parallel result. -/
noncomputable def freesasa_shrake_rupley (env : ExecEnv) (inp : SasaInput)
    (u : ℕ → Coord3) (param : freesasa_parameters) : RetCode × Option (ℕ → ℝ) :=
  if param.shrake_rupley_n_points = 0 then (RetCode.fail, none)
  else if env.alloc_ok = false then (RetCode.fail, none)
  else if 1 < param.n_threads ∧ env.threads_supported = false then
    (RetCode.warn,
      some (sr_parallel inp param.probe_radius u param.shrake_rupley_n_points 1))
  else
    (RetCode.success,
      some (sr_parallel inp param.probe_radius u param.shrake_rupley_n_points
        param.n_threads))

lemma chunk_cover {n nt i : ℕ} (hnt : 1 ≤ nt) (hi : i < n) :
    ∃ t, t < nt ∧ chunkLo n nt t ≤ i ∧ i < chunkHi n nt t := by
  by_cases hc : i < (nt - 1) * (n / nt)
  · have hc0 : 0 < n / nt := by
      rcases Nat.eq_zero_or_pos (n / nt) with h | h
      · rw [h, Nat.mul_zero] at hc
        exact absurd hc (Nat.not_lt_zero i)
      · exact h
    have ht : i / (n / nt) < nt - 1 := (Nat.div_lt_iff_lt_mul hc0).mpr hc
    refine ⟨i / (n / nt), by omega, ?_, ?_⟩
    · exact Nat.div_mul_le_self i (n / nt)
    · have hne : i / (n / nt) + 1 ≠ nt := by omega
      rw [chunkHi, if_neg hne]
      calc i = (n / nt) * (i / (n / nt)) + i % (n / nt) := (Nat.div_add_mod i (n / nt)).symm
        _ < (n / nt) * (i / (n / nt)) + (n / nt) :=
            Nat.add_lt_add_left (Nat.mod_lt i hc0) _
        _ = (i / (n / nt) + 1) * (n / nt) := by ring
  · refine ⟨nt - 1, by omega, Nat.le_of_not_lt hc, ?_⟩
    rw [chunkHi, if_pos (by omega)]
    exact hi

lemma sr_buffer_write {inp : SasaInput} {probe : ℝ} {u : ℕ → Coord3} {k nt t i : ℕ}
    (h : ∃ t', t' < t ∧ chunkLo inp.n nt t' ≤ i ∧ i < chunkHi inp.n nt t') :
    sr_buffer inp probe u k nt t i = sr_atom_sasa inp probe u k i := by
  induction t with
  | zero => obtain ⟨t', ht', _⟩ := h; omega
  | succ t ih =>
      obtain ⟨t', ht', hlo, hhi⟩ := h
      by_cases hc : chunkLo inp.n nt t ≤ i ∧ i < chunkHi inp.n nt t
      · simp only [sr_buffer, if_pos hc]
      · have ht'' : t' < t := by
          rcases Nat.lt_succ_iff_lt_or_eq.mp ht' with h1 | h1
          · exact h1
          · exact absurd ⟨h1 ▸ hlo, h1 ▸ hhi⟩ hc
        simp only [sr_buffer, if_neg hc]
        exact ih ⟨t', ht'', hlo, hhi⟩

lemma sr_parallel_eq {inp : SasaInput} (probe : ℝ) (u : ℕ → Coord3) (k : ℕ) {nt i : ℕ}
    (hnt : 1 ≤ nt) (hi : i < inp.n) :
    sr_parallel inp probe u k nt i = sr_atom_sasa inp probe u k i := by
  obtain ⟨t, ht, hlo, hhi⟩ := chunk_cover hnt hi
  exact sr_buffer_write ⟨t, ht, hlo, hhi⟩

lemma sr_engine_map {env : ExecEnv} {inp : SasaInput} {u : ℕ → Coord3}
    {probe delta : ℝ} {k nt i : ℕ} (hk : k ≠ 0) (ha : env.alloc_ok = true)
    (hnt : 1 ≤ nt) (hi : i < inp.n) :
    (freesasa_shrake_rupley env inp u ⟨probe, k, delta, nt⟩).2.map (fun f => f i)
      = some (sr_atom_sasa inp probe u k i) := by
  unfold freesasa_shrake_rupley
  simp only [if_neg hk, ha, Bool.true_eq_false, if_false]
  by_cases hw : 1 < nt ∧ env.threads_supported = false
  · rw [if_pos hw]
    simp only [Option.map_some']
    rw [sr_parallel_eq probe u k le_rfl hi]
  · rw [if_neg hw]
    simp only [Option.map_some']
    rw [sr_parallel_eq probe u k hnt hi]

/-- C7: every invocation of the Shrake-Rupley engine whose resolution yields
zero test points fails with a configuration error - Failure with no output -
rather than succeeding or merely warning. -/
theorem shrake_rupley_zero_points_fail (env : ExecEnv) (inp : SasaInput)
    (u : ℕ → Coord3) (param : freesasa_parameters)
    (hk : param.shrake_rupley_n_points = 0) :
    freesasa_shrake_rupley env inp u param = (RetCode.fail, none) := by
  unfold freesasa_shrake_rupley
  rw [if_pos hk]

/-- C7 witness: the concrete call with zero test points on a one-atom input,
threading supported and allocation succeeding, returns Failure. -/
theorem shrake_rupley_zero_points_fail_witness :
    freesasa_shrake_rupley ⟨true, true⟩ ⟨1, fun _ => mkCoord 0 0 0, fun _ => 1⟩
        (fun _ => mkCoord 1 0 0) ⟨1.4, 0, 1, 1⟩ = (RetCode.fail, none) :=
  shrake_rupley_zero_points_fail _ _ _ _ rfl

/-- C8: two runs of `freesasa_shrake_rupley` on the same structure and
parameters that differ only in the configured thread count produce exactly
identical per-atom SASA values, because each worker writes only its own
disjoint output slots with the same pure per-atom value. -/
theorem shrake_rupley_thread_invariance (env : ExecEnv) (inp : SasaInput)
    (u : ℕ → Coord3) (probe delta : ℝ) (k nt1 nt2 i : ℕ)
    (h1 : 1 ≤ nt1) (h2 : 1 ≤ nt2) (hi : i < inp.n) :
    (freesasa_shrake_rupley env inp u ⟨probe, k, delta, nt1⟩).2.map (fun f => f i)
      = (freesasa_shrake_rupley env inp u ⟨probe, k, delta, nt2⟩).2.map (fun f => f i) := by
  by_cases hk : k = 0
  · unfold freesasa_shrake_rupley
    rw [if_pos hk, if_pos hk]
  · by_cases ha : env.alloc_ok = true
    · rw [sr_engine_map hk ha h1 hi, sr_engine_map hk ha h2 hi]
    · unfold freesasa_shrake_rupley
      rw [if_neg hk, if_neg hk, if_pos (by simpa using ha), if_pos (by simpa using ha)]

/-- C8 witness: on a concrete one-atom input, runs with thread counts 2 and 8
give the same per-atom value at atom 0. -/
theorem shrake_rupley_thread_invariance_witness :
    (freesasa_shrake_rupley ⟨true, true⟩ ⟨1, fun _ => mkCoord 0 0 0, fun _ => 1⟩
        (fun _ => mkCoord 1 0 0) ⟨1.4, 10, 1, 2⟩).2.map (fun f => f 0)
      = (freesasa_shrake_rupley ⟨true, true⟩ ⟨1, fun _ => mkCoord 0 0 0, fun _ => 1⟩
        (fun _ => mkCoord 1 0 0) ⟨1.4, 10, 1, 8⟩).2.map (fun f => f 0) :=
  shrake_rupley_thread_invariance ⟨true, true⟩ ⟨1, fun _ => mkCoord 0 0 0, fun _ => 1⟩
    (fun _ => mkCoord 1 0 0) 1.4 1 10 2 8 0 (by omega) (by omega) (by norm_num)

/-- Modelled from the spec: the lower end of the z-extent of atom `i`'s
inflated sphere (spec 4.2, "partition the molecule's z-extent"). -/
def lr_zmin (inp : SasaInput) (probe : ℝ) (i : ℕ) : ℝ :=
  inp.coord i 2 - inflatedRadius inp probe i

/-- Modelled from the spec: the upper end of the z-extent of atom `i`'s
inflated sphere. -/
def lr_zmax (inp : SasaInput) (probe : ℝ) (i : ℕ) : ℝ :=
  inp.coord i 2 + inflatedRadius inp probe i

/-- Clamp `x` into the interval from `a` to `b`. -/
def clipTo (a b x : ℝ) : ℝ := max a (min x b)

/-- Modelled from the spec: the height of the part of slab `s` (between the
slicing planes at `lo + s*delta` and `lo + (s+1)*delta`) that lies within
atom `i`'s inflated sphere; an atom absent from the slab contributes zero
height (spec 4.2, edge cases). -/
def lr_slab_height (inp : SasaInput) (probe lo delta : ℝ) (i s : ℕ) : ℝ :=
  clipTo (lr_zmin inp probe i) (lr_zmax inp probe i) (lo + ((s : ℝ) + 1) * delta)
    - clipTo (lr_zmin inp probe i) (lr_zmax inp probe i) (lo + (s : ℝ) * delta)

/-- Modelled from the spec: the radius of atom `i`'s circular cross-section
at height `z`, `sqrt((radius[i]+probe)^2 - dz^2)` (spec 4.2). -/
noncomputable def lr_slice_radius (inp : SasaInput) (probe : ℝ) (i : ℕ) (z : ℝ) : ℝ :=
  Real.sqrt ((inflatedRadius inp probe i) ^ 2 - (z - inp.coord i 2) ^ 2)

/-- Modelled from the spec: the point at angle `theta` of atom `i`'s
cross-section circle at height `z` (spec 4.2, the arc-union problem is posed
on this circle). -/
noncomputable def lr_circle_point (inp : SasaInput) (probe : ℝ) (i : ℕ)
    (z θ : ℝ) : Coord3 :=
  mkCoord (inp.coord i 0 + lr_slice_radius inp probe i z * Real.cos θ)
    (inp.coord i 1 + lr_slice_radius inp probe i z * Real.sin θ) z

/-- Modelled from the spec: the angle `theta` of atom `i`'s circle at height
`z` is covered when the circle point lies within the inflated sphere of an
overlapping neighbor (spec 4.2). -/
def lr_angle_buried (inp : SasaInput) (probe : ℝ) (i : ℕ) (z θ : ℝ) : Prop :=
  ∃ j, j < inp.n ∧ j ≠ i ∧
    dist (lr_circle_point inp probe i z θ) (inp.coord j) < inflatedRadius inp probe j

/-- Modelled from the spec: the height within atom `i`'s sphere at which slab
`s`'s cross-section circle is taken - the slab midplane, clamped into the
sphere's z-extent. -/
noncomputable def lr_zeval (inp : SasaInput) (probe lo delta : ℝ) (i s : ℕ) : ℝ :=
  clipTo (lr_zmin inp probe i) (lr_zmax inp probe i)
    (lo + (s : ℝ) * delta + delta / 2)

/-- Modelled from the spec: the set of angles of atom `i`'s circle in slab
`s` not covered by any overlapping neighbor circle (spec 4.2, the residual
exposed angular span of the arc-union problem). -/
def lr_exposed_set (inp : SasaInput) (probe lo delta : ℝ) (i s : ℕ) : Set ℝ :=
  {θ : ℝ | θ ∈ Set.Ico 0 (2 * π)
    ∧ ¬ lr_angle_buried inp probe i (lr_zeval inp probe lo delta i s) θ}

/-- Modelled from the spec: the exposed fraction of atom `i`'s circle in slab
`s` - the measure of the exposed angular span over the full angle. -/
noncomputable def lr_exposed_fraction (inp : SasaInput) (probe lo delta : ℝ)
    (i s : ℕ) : ℝ :=
  (volume (lr_exposed_set inp probe lo delta i s)).toReal / (2 * π)

/-- Modelled from the spec: atom `i`'s area contribution of slab `s`.  Spec
4.2 writes the contribution as exposed fraction times circumference times
slice thickness; taken literally with the cross-section circumference that
formula contradicts the spec's own convergence statement (spec 4.2) and
isolation invariant (spec section 8), so, as those two properties demand, the
slab's lateral sphere area `2 pi (radius[i]+probe) h` (the spherical-zone
area of the slab, `h` the slab height within the sphere) is used as the full
area that the exposed fraction scales. -/
noncomputable def lr_slice_contrib (inp : SasaInput) (probe lo delta : ℝ)
    (i s : ℕ) : ℝ :=
  lr_exposed_fraction inp probe lo delta i s
    * (2 * π * inflatedRadius inp probe i) * lr_slab_height inp probe lo delta i s

/-- Modelled from the spec: atom `i`'s Lee-Richards SASA, the sum of its
contributions across all slices (spec 4.2). -/
noncomputable def lr_atom_sasa (inp : SasaInput) (probe lo delta : ℝ)
    (nslices i : ℕ) : ℝ :=
  ∑ s ∈ Finset.range nslices, lr_slice_contrib inp probe lo delta i s

/-- Modelled from the spec: the bottom of the slice grid, the lower end of
the molecule's z-extent (spec 4.2). -/
noncomputable def lr_lo (inp : SasaInput) (probe : ℝ) : ℝ :=
  if h : inp.n = 0 then 0
  else (Finset.range inp.n).inf' (Finset.nonempty_range_iff.mpr h) (lr_zmin inp probe)

/-- Modelled from the spec: the top of the molecule's z-extent. -/
noncomputable def lr_hi (inp : SasaInput) (probe : ℝ) : ℝ :=
  if h : inp.n = 0 then 0
  else (Finset.range inp.n).sup' (Finset.nonempty_range_iff.mpr h) (lr_zmax inp probe)

/-- Modelled from the spec: the number of slices, enough slabs of thickness
`delta` to cover the molecule's z-extent (spec 4.2, spacing derived from the
resolution parameter). -/
noncomputable def lr_nslices (inp : SasaInput) (probe delta : ℝ) : ℕ :=
  Nat.ceil ((lr_hi inp probe - lr_lo inp probe) / delta)

/-- Modelled from the spec: the per-atom Lee-Richards result over the derived
slice grid. -/
noncomputable def lr_result (inp : SasaInput) (probe delta : ℝ) : ℕ → ℝ :=
  fun i => lr_atom_sasa inp probe (lr_lo inp probe) delta (lr_nslices inp probe delta) i

/-- Modelled from the spec: the `freesasa_lee_richards` entry point (header
lines 43-67): Failure on allocation error of the scratch buffers; Warning
with the sequentially computed result when more than one thread is requested
without threading support; Success with the result otherwise.  Slice sums
are exact reals here, so the merge order of the per-thread partial vectors
does not show in the result (spec 4.2, concurrency). -/
noncomputable def freesasa_lee_richards (env : ExecEnv) (inp : SasaInput)
    (param : freesasa_parameters) : RetCode × Option (ℕ → ℝ) :=
  if env.alloc_ok = false then (RetCode.fail, none)
  else if 1 < param.n_threads ∧ env.threads_supported = false then
    (RetCode.warn, some (lr_result inp param.probe_radius param.lee_richards_delta))
  else
    (RetCode.success, some (lr_result inp param.probe_radius param.lee_richards_delta))

/-- C6 counterexample: a concrete Shrake-Rupley call whose allocation
succeeds (`alloc_ok = true`) but whose resolution yields zero test points
returns Failure, refuting "return a Failure exactly when memory allocation
for internal scratch buffers fails" (the same input also requests 3 threads
without threading support, so the claim would have predicted a Warning). -/
theorem engines_failure_counterexample :
    ¬ ((freesasa_shrake_rupley ⟨false, true⟩ ⟨1, fun _ => mkCoord 0 0 0, fun _ => 1⟩
          (fun _ => mkCoord 1 0 0) ⟨1.4, 0, 1, 3⟩).1 = RetCode.fail
        → (⟨false, true⟩ : ExecEnv).alloc_ok = false) := by
  intro h
  exact absurd (h rfl) (by decide)

/-- C6 amended: both engines return a Warning - with the computation still
completed sequentially and numerically valid - whenever more than one thread
is requested but the execution environment lacks multi-threading support (for
Shrake-Rupley provided the configuration is valid, i.e. a nonzero test-point
count); both return Failure with undefined output whenever allocation fails;
and Failure occurs exactly on allocation failure for Lee-Richards, while for
Shrake-Rupley it occurs exactly on allocation failure or a zero test-point
count. -/
theorem engines_warn_and_failure_conditions (env : ExecEnv) (inp : SasaInput)
    (u : ℕ → Coord3) (param : freesasa_parameters) :
    (env.alloc_ok = false →
        freesasa_shrake_rupley env inp u param = (RetCode.fail, none)
        ∧ freesasa_lee_richards env inp param = (RetCode.fail, none))
    ∧ (env.alloc_ok = true → env.threads_supported = false → 1 < param.n_threads →
        param.shrake_rupley_n_points ≠ 0 →
        freesasa_shrake_rupley env inp u param
          = (RetCode.warn,
              some (sr_parallel inp param.probe_radius u param.shrake_rupley_n_points 1))
        ∧ freesasa_lee_richards env inp param
          = (RetCode.warn,
              some (lr_result inp param.probe_radius param.lee_richards_delta)))
    ∧ ((freesasa_shrake_rupley env inp u param).1 = RetCode.fail
        ↔ (env.alloc_ok = false ∨ param.shrake_rupley_n_points = 0))
    ∧ ((freesasa_lee_richards env inp param).1 = RetCode.fail
        ↔ env.alloc_ok = false) := by
  refine ⟨?_, ?_, ?_, ?_⟩
  · intro ha
    constructor
    · unfold freesasa_shrake_rupley
      by_cases hk : param.shrake_rupley_n_points = 0
      · rw [if_pos hk]
      · rw [if_neg hk, if_pos ha]
    · unfold freesasa_lee_richards
      rw [if_pos ha]
  · intro ha ht hnt hk
    constructor
    · unfold freesasa_shrake_rupley
      rw [if_neg hk, if_neg (by simp [ha]), if_pos ⟨hnt, ht⟩]
    · unfold freesasa_lee_richards
      rw [if_neg (by simp [ha]), if_pos ⟨hnt, ht⟩]
  · by_cases hk : param.shrake_rupley_n_points = 0
    · simp [freesasa_shrake_rupley, hk]
    · by_cases ha : env.alloc_ok = false
      · simp [freesasa_shrake_rupley, hk, ha]
      · unfold freesasa_shrake_rupley
        rw [if_neg hk, if_neg ha]
        split_ifs <;> simp [ha, hk]
  · by_cases ha : env.alloc_ok = false
    · simp [freesasa_lee_richards, ha]
    · unfold freesasa_lee_richards
      rw [if_neg ha]
      split_ifs <;> simp [ha]

/-- C6 witness: on a concrete one-atom input with allocation succeeding, 2
threads requested and threading unsupported, both engines return a Warning
together with the sequentially computed result. -/
theorem engines_warn_and_failure_conditions_witness :
    freesasa_shrake_rupley ⟨false, true⟩ ⟨1, fun _ => mkCoord 0 0 0, fun _ => 1⟩
        (fun _ => mkCoord 1 0 0) ⟨1.4, 10, 1, 2⟩
      = (RetCode.warn,
          some (sr_parallel ⟨1, fun _ => mkCoord 0 0 0, fun _ => 1⟩ 1.4
            (fun _ => mkCoord 1 0 0) 10 1))
    ∧ freesasa_lee_richards ⟨false, true⟩ ⟨1, fun _ => mkCoord 0 0 0, fun _ => 1⟩
        ⟨1.4, 10, 1, 2⟩
      = (RetCode.warn,
          some (lr_result ⟨1, fun _ => mkCoord 0 0 0, fun _ => 1⟩ 1.4 1)) :=
  (engines_warn_and_failure_conditions ⟨false, true⟩
      ⟨1, fun _ => mkCoord 0 0 0, fun _ => 1⟩ (fun _ => mkCoord 1 0 0)
      ⟨1.4, 10, 1, 2⟩).2.1 rfl rfl (by decide) (by decide)

lemma mkCoord_apply_zero (x y z : ℝ) : mkCoord x y z 0 = x := rfl

lemma mkCoord_apply_one (x y z : ℝ) : mkCoord x y z 1 = y := rfl

lemma mkCoord_apply_two (x y z : ℝ) : mkCoord x y z 2 = z := rfl

lemma sr_not_buried {inp : SasaInput} {probe : ℝ} {u : ℕ → Coord3} {i : ℕ} (m : ℕ)
    (hu : ‖u m‖ = 1) (hr : 0 ≤ inflatedRadius inp probe i)
    (hiso : ∀ j, j < inp.n → j ≠ i →
      inflatedRadius inp probe i + inflatedRadius inp probe j
        ≤ dist (inp.coord i) (inp.coord j)) :
    ¬ sr_point_buried inp probe u i m := by
  rintro ⟨j, hj, hji, hlt⟩
  have hd : dist (inp.coord i) (sr_test_point inp probe u i m)
      = inflatedRadius inp probe i := by
    rw [dist_comm, sr_test_point, dist_eq_norm, add_sub_cancel_left, norm_smul,
      Real.norm_eq_abs, abs_of_nonneg hr, hu, mul_one]
  have htri := dist_triangle (inp.coord i) (sr_test_point inp probe u i m) (inp.coord j)
  have h1 := hiso j hj hji
  linarith

lemma sr_atom_sasa_isolated {inp : SasaInput} {probe : ℝ} {u : ℕ → Coord3} {k i : ℕ}
    (hk : k ≠ 0)
    (hu : ∀ m, m < k → ‖u m‖ = 1)
    (hr : 0 ≤ inflatedRadius inp probe i)
    (hiso : ∀ j, j < inp.n → j ≠ i →
      inflatedRadius inp probe i + inflatedRadius inp probe j
        ≤ dist (inp.coord i) (inp.coord j)) :
    sr_atom_sasa inp probe u k i = 4 * π * (inflatedRadius inp probe i) ^ 2 := by
  have hcount : sr_exposed_count inp probe u k i = k := by
    classical
    unfold sr_exposed_count
    rw [Finset.filter_true_of_mem
      fun m hm => sr_not_buried m (hu m (Finset.mem_range.mp hm)) hr hiso]
    exact Finset.card_range k
  rw [sr_atom_sasa, hcount, div_self (by exact_mod_cast hk), one_mul]

lemma lr_zmin_le_zmax {inp : SasaInput} {probe : ℝ} {i : ℕ}
    (hr : 0 ≤ inflatedRadius inp probe i) :
    lr_zmin inp probe i ≤ lr_zmax inp probe i := by
  unfold lr_zmin lr_zmax
  linarith

lemma clipTo_mem {a b : ℝ} (x : ℝ) (hab : a ≤ b) :
    a ≤ clipTo a b x ∧ clipTo a b x ≤ b := by
  unfold clipTo
  exact ⟨le_max_left _ _, max_le hab (min_le_right _ _)⟩

lemma lr_dist_circle_center {inp : SasaInput} {probe : ℝ} {i : ℕ} (z θ : ℝ)
    (hr : 0 ≤ inflatedRadius inp probe i)
    (hz1 : lr_zmin inp probe i ≤ z) (hz2 : z ≤ lr_zmax inp probe i) :
    dist (lr_circle_point inp probe i z θ) (inp.coord i)
      = inflatedRadius inp probe i := by
  have hdz : (z - inp.coord i 2) ^ 2 ≤ (inflatedRadius inp probe i) ^ 2 := by
    unfold lr_zmin at hz1
    unfold lr_zmax at hz2
    exact sq_le_sq' (by linarith) (by linarith)
  have hge : 0 ≤ (inflatedRadius inp probe i) ^ 2 - (z - inp.coord i 2) ^ 2 := by
    linarith
  rw [EuclideanSpace.dist_eq, Fin.sum_univ_three]
  simp only [lr_circle_point, mkCoord_apply_zero, mkCoord_apply_one, mkCoord_apply_two,
    Real.dist_eq]
  have e1 : inp.coord i 0 + lr_slice_radius inp probe i z * Real.cos θ - inp.coord i 0
      = lr_slice_radius inp probe i z * Real.cos θ := by ring
  have e2 : inp.coord i 1 + lr_slice_radius inp probe i z * Real.sin θ - inp.coord i 1
      = lr_slice_radius inp probe i z * Real.sin θ := by ring
  rw [e1, e2, sq_abs, sq_abs, sq_abs]
  have hs : lr_slice_radius inp probe i z ^ 2
      = (inflatedRadius inp probe i) ^ 2 - (z - inp.coord i 2) ^ 2 := by
    rw [lr_slice_radius]
    exact Real.sq_sqrt hge
  have ht : Real.cos θ ^ 2 + Real.sin θ ^ 2 = 1 := by
    have := Real.sin_sq_add_cos_sq θ
    linarith
  have e3 : (lr_slice_radius inp probe i z * Real.cos θ) ^ 2
      + (lr_slice_radius inp probe i z * Real.sin θ) ^ 2 + (z - inp.coord i 2) ^ 2
      = (inflatedRadius inp probe i) ^ 2 := by
    calc (lr_slice_radius inp probe i z * Real.cos θ) ^ 2
        + (lr_slice_radius inp probe i z * Real.sin θ) ^ 2 + (z - inp.coord i 2) ^ 2
        = lr_slice_radius inp probe i z ^ 2 * (Real.cos θ ^ 2 + Real.sin θ ^ 2)
          + (z - inp.coord i 2) ^ 2 := by ring
      _ = lr_slice_radius inp probe i z ^ 2 + (z - inp.coord i 2) ^ 2 := by
          rw [ht, mul_one]
      _ = (inflatedRadius inp probe i) ^ 2 := by rw [hs]; ring
  rw [e3]
  exact Real.sqrt_sq hr

lemma lr_exposed_fraction_isolated {inp : SasaInput} {probe : ℝ} {i : ℕ}
    (lo delta : ℝ) (s : ℕ)
    (hr : 0 ≤ inflatedRadius inp probe i)
    (hiso : ∀ j, j < inp.n → j ≠ i →
      inflatedRadius inp probe i + inflatedRadius inp probe j
        ≤ dist (inp.coord i) (inp.coord j)) :
    lr_exposed_fraction inp probe lo delta i s = 1 := by
  have hz : lr_zmin inp probe i ≤ lr_zeval inp probe lo delta i s
      ∧ lr_zeval inp probe lo delta i s ≤ lr_zmax inp probe i := by
    unfold lr_zeval
    exact clipTo_mem _ (lr_zmin_le_zmax hr)
  have hnb : ∀ θ : ℝ, ¬ lr_angle_buried inp probe i (lr_zeval inp probe lo delta i s) θ := by
    intro θ
    rintro ⟨j, hj, hji, hlt⟩
    have hd := lr_dist_circle_center (lr_zeval inp probe lo delta i s) θ hr hz.1 hz.2
    have htri := dist_triangle (inp.coord i)
      (lr_circle_point inp probe i (lr_zeval inp probe lo delta i s) θ) (inp.coord j)
    have h1 := hiso j hj hji
    rw [dist_comm] at hd
    linarith
  have hset : lr_exposed_set inp probe lo delta i s = Set.Ico 0 (2 * π) := by
    ext θ
    simp only [lr_exposed_set, Set.mem_setOf_eq]
    exact and_iff_left (hnb θ)
  rw [lr_exposed_fraction, hset, Real.volume_Ico, sub_zero,
    ENNReal.toReal_ofReal (by positivity)]
  exact div_self (by positivity)

lemma lr_slab_height_sum {inp : SasaInput} {probe : ℝ} {i : ℕ} (lo delta : ℝ) (ns : ℕ)
    (hr : 0 ≤ inflatedRadius inp probe i)
    (hlo : lo ≤ lr_zmin inp probe i)
    (hhi : lr_zmax inp probe i ≤ lo + (ns : ℝ) * delta) :
    ∑ s ∈ Finset.range ns, lr_slab_height inp probe lo delta i s
      = 2 * inflatedRadius inp probe i := by
  have hab := lr_zmin_le_zmax hr
  have hstep : ∀ s ∈ Finset.range ns, lr_slab_height inp probe lo delta i s
      = (fun t : ℕ => clipTo (lr_zmin inp probe i) (lr_zmax inp probe i)
          (lo + (t : ℝ) * delta)) (s + 1)
        - (fun t : ℕ => clipTo (lr_zmin inp probe i) (lr_zmax inp probe i)
          (lo + (t : ℝ) * delta)) s := by
    intro s _
    simp only [lr_slab_height, Nat.cast_add, Nat.cast_one]
  have htel := Finset.sum_range_sub
    (fun t : ℕ => clipTo (lr_zmin inp probe i) (lr_zmax inp probe i)
      (lo + (t : ℝ) * delta)) ns
  rw [Finset.sum_congr rfl hstep, htel]
  simp only [Nat.cast_zero, zero_mul, add_zero]
  have h1 : clipTo (lr_zmin inp probe i) (lr_zmax inp probe i) (lo + (ns : ℝ) * delta)
      = lr_zmax inp probe i := by
    unfold clipTo
    rw [min_eq_right hhi, max_eq_right hab]
  have h2 : clipTo (lr_zmin inp probe i) (lr_zmax inp probe i) lo
      = lr_zmin inp probe i := by
    unfold clipTo
    rw [min_eq_left (le_trans hlo hab), max_eq_left hlo]
  rw [h1, h2]
  unfold lr_zmin lr_zmax
  ring

lemma lr_atom_sasa_isolated {inp : SasaInput} {probe : ℝ} {i : ℕ} (lo delta : ℝ) (ns : ℕ)
    (hr : 0 ≤ inflatedRadius inp probe i)
    (hiso : ∀ j, j < inp.n → j ≠ i →
      inflatedRadius inp probe i + inflatedRadius inp probe j
        ≤ dist (inp.coord i) (inp.coord j))
    (hlo : lo ≤ lr_zmin inp probe i)
    (hhi : lr_zmax inp probe i ≤ lo + (ns : ℝ) * delta) :
    lr_atom_sasa inp probe lo delta ns i
      = 4 * π * (inflatedRadius inp probe i) ^ 2 := by
  unfold lr_atom_sasa
  have hc : ∀ s ∈ Finset.range ns, lr_slice_contrib inp probe lo delta i s
      = (2 * π * inflatedRadius inp probe i) * lr_slab_height inp probe lo delta i s := by
    intro s _
    rw [lr_slice_contrib, lr_exposed_fraction_isolated lo delta s hr hiso, one_mul]
  rw [Finset.sum_congr rfl hc, ← Finset.mul_sum,
    lr_slab_height_sum lo delta ns hr hlo hhi]
  ring

lemma lr_result_isolated {inp : SasaInput} {probe delta : ℝ} {i : ℕ}
    (hi : i < inp.n) (hdelta : 0 < delta)
    (hr : 0 ≤ inflatedRadius inp probe i)
    (hiso : ∀ j, j < inp.n → j ≠ i →
      inflatedRadius inp probe i + inflatedRadius inp probe j
        ≤ dist (inp.coord i) (inp.coord j)) :
    lr_result inp probe delta i = 4 * π * (inflatedRadius inp probe i) ^ 2 := by
  have hn : ¬ inp.n = 0 := by omega
  have hlo : lr_lo inp probe ≤ lr_zmin inp probe i := by
    rw [lr_lo, dif_neg hn]
    exact Finset.inf'_le _ (Finset.mem_range.mpr hi)
  have hhi1 : lr_zmax inp probe i ≤ lr_hi inp probe := by
    rw [lr_hi, dif_neg hn]
    exact Finset.le_sup' _ (Finset.mem_range.mpr hi)
  have hceil : lr_hi inp probe - lr_lo inp probe
      ≤ (lr_nslices inp probe delta : ℝ) * delta := by
    have h1 := Nat.le_ceil ((lr_hi inp probe - lr_lo inp probe) / delta)
    rw [div_le_iff₀ hdelta] at h1
    rw [lr_nslices]
    exact h1
  simp only [lr_result]
  exact lr_atom_sasa_isolated _ _ _ hr hiso hlo (by linarith)

/-- C1: for an atom with no neighbors within reach (every other atom's
inflated sphere is at least at touching distance), both
`freesasa_shrake_rupley` and `freesasa_lee_richards` compute that atom's SASA
as exactly the full sphere area `4 pi (radius + probe_radius)^2` (hence equal
within any floating tolerance), provided the call is valid - allocation
succeeds, at least one test point, at least one thread, unit sampling
directions and a positive slice spacing. -/
theorem engines_isolated_atom_full_sphere (env : ExecEnv) (inp : SasaInput)
    (u : ℕ → Coord3) (param : freesasa_parameters) (i : ℕ)
    (hi : i < inp.n)
    (ha : env.alloc_ok = true)
    (hk : param.shrake_rupley_n_points ≠ 0)
    (hnt : 1 ≤ param.n_threads)
    (hu : ∀ m, m < param.shrake_rupley_n_points → ‖u m‖ = 1)
    (hr : 0 ≤ inflatedRadius inp param.probe_radius i)
    (hdelta : 0 < param.lee_richards_delta)
    (hiso : ∀ j, j < inp.n → j ≠ i →
      inflatedRadius inp param.probe_radius i + inflatedRadius inp param.probe_radius j
        ≤ dist (inp.coord i) (inp.coord j)) :
    (freesasa_shrake_rupley env inp u param).2.map (fun f => f i)
      = some (4 * π * (inflatedRadius inp param.probe_radius i) ^ 2)
    ∧ (freesasa_lee_richards env inp param).2.map (fun f => f i)
      = some (4 * π * (inflatedRadius inp param.probe_radius i) ^ 2) := by
  constructor
  · rw [sr_engine_map hk ha hnt hi, sr_atom_sasa_isolated hk hu hr hiso]
  · unfold freesasa_lee_richards
    rw [if_neg (by simp [ha])]
    split_ifs
    · simp only [Option.map_some']
      rw [lr_result_isolated hi hdelta hr hiso]
    · simp only [Option.map_some']
      rw [lr_result_isolated hi hdelta hr hiso]

/-- C1 witness: a single atom at the origin with radius 1 and probe radius 1
(inflated radius 2), one unit test point, slice spacing 1 and one thread:
both engines report the full sphere area. -/
theorem engines_isolated_atom_full_sphere_witness :
    (freesasa_shrake_rupley ⟨true, true⟩ ⟨1, fun _ => mkCoord 0 0 0, fun _ => 1⟩
        (fun _ => mkCoord 1 0 0) ⟨1, 1, 1, 1⟩).2.map (fun f => f 0)
      = some (4 * π
          * (inflatedRadius ⟨1, fun _ => mkCoord 0 0 0, fun _ => 1⟩ 1 0) ^ 2)
    ∧ (freesasa_lee_richards ⟨true, true⟩ ⟨1, fun _ => mkCoord 0 0 0, fun _ => 1⟩
        ⟨1, 1, 1, 1⟩).2.map (fun f => f 0)
      = some (4 * π
          * (inflatedRadius ⟨1, fun _ => mkCoord 0 0 0, fun _ => 1⟩ 1 0) ^ 2) :=
  engines_isolated_atom_full_sphere ⟨true, true⟩
    ⟨1, fun _ => mkCoord 0 0 0, fun _ => 1⟩ (fun _ => mkCoord 1 0 0) ⟨1, 1, 1, 1⟩ 0
    Nat.one_pos rfl (by decide) (by decide)
    (by
      intro m hm
      show ‖mkCoord 1 0 0‖ = 1
      rw [EuclideanSpace.norm_eq, Fin.sum_univ_three, mkCoord_apply_zero,
        mkCoord_apply_one, mkCoord_apply_two]
      simp [Real.norm_eq_abs])
    (by norm_num [inflatedRadius])
    (by norm_num)
    (by
      intro j hj hne
      exact absurd (Nat.lt_one_iff.mp hj) hne)
